import Mathlib

/-!
Verification of the Voxlor multi-agent app-generation pipeline.

This file gives a shallow embedding, in Lean 4, of the parts of the
`ai-agent-voxlor` TypeScript repository that the verified claims are about:

* `OptimizerAgent` (src/agents/OptimizerAgent.ts): the performance rewrite
  pass, the unused-import removal step, and the three score functions;
* `ResearchAgent` (src/agents/ResearchAgent.ts): keyword extraction, the
  search fallback chain, relevance scoring, and the research summary;
* `PlannerAgent` (PlannerAgent.ts): `parsePlan` and `refinePlan`;
* `VoxlorOrchestrator` (VoxlorOrchestrator.ts): `generateApp`;
* `DeployAgent` (src/agents/DeployAgent.ts): `checkDeploymentStatus` and
  `rollbackDeployment`.

Modelling conventions:

* A JavaScript string is modelled as `Str := List Char`.  JavaScript string
  builtins (`includes`, `replace` with a string pattern, `split` with a
  one-character separator, `trim`, `toLowerCase`, `join`) are modelled by
  executable functions `jsIncludes`, `jsReplaceFirst`, `jsSplit`, `jsTrim`,
  `jsLower`, `joinSep` below, with JavaScript semantics (first-occurrence
  replacement, empty pieces preserved by `split`, and so on).
* JavaScript numbers are modelled as `ℚ` (the claims under verification
  never depend on floating-point rounding).
* Dynamically typed JSON data (everything produced by `JSON.parse`) is
  modelled by the inductive type `Json`, and `JSON.parse` by the executable
  fuel-based parser `jsonParse`.
* Asynchronous code that can reject is modelled with `Except Str α`
  (the error message as the carried value); external collaborators
  (text-generation client, search providers, deployment providers, the
  cache file) are modelled as oracle fields of per-agent environment
  structures, one field per call site in the source.  A `.error` value of
  an oracle field models that external call throwing/rejecting.
-/

/-- String type of the embedding: a JavaScript string as its list of
characters. -/
abbrev Str := List Char

/-- Left brace character, kept out of string literals. -/
def lbrace : Char := Char.ofNat 123

/-- Right brace character, kept out of string literals. -/
def rbrace : Char := Char.ofNat 125

/-- Model of `a.includes(b)` on JavaScript strings: `b` occurs as a
contiguous substring of `a`. -/
def jsIncludes (l sub : Str) : Bool :=
  if sub.isPrefixOf l then true
  else
    match l with
    | [] => false
    | _ :: cs => jsIncludes cs sub

/-- Model of `l.replace(pat, rep)` with a *string* pattern: only the first
occurrence of `pat` is replaced; if `pat` does not occur, `l` is returned
unchanged.  (An empty pattern matches at the start, as in JavaScript.) -/
def jsReplaceFirst (l pat rep : Str) : Str :=
  if pat.isPrefixOf l then rep ++ l.drop pat.length
  else
    match l with
    | [] => []
    | c :: cs => c :: jsReplaceFirst cs pat rep

/-- Model of `l.split(sep)` for a one-character separator: empty pieces are
preserved and splitting the empty string yields `[[]]`, as in JavaScript. -/
def jsSplit (sep : Char) : Str → List Str
  | [] => [[]]
  | c :: cs =>
    match jsSplit sep cs with
    | [] => [[]]
    | p :: ps => if c = sep then [] :: p :: ps else (c :: p) :: ps

/-- Whitespace predicate used for `trim` and for the `\s` regex class.
JavaScript also treats some rarer Unicode spaces as whitespace; the claims
never depend on those. -/
def jsWhite (c : Char) : Bool := c.isWhitespace

/-- Model of `l.trim()`: strip leading and trailing whitespace. -/
def jsTrim (l : Str) : Str :=
  ((l.dropWhile jsWhite).reverse.dropWhile jsWhite).reverse

/-- Model of `l.toLowerCase()` (ASCII case mapping suffices here). -/
def jsLower (l : Str) : Str := l.map Char.toLower

/-- Model of `xs.join(sep)` on an array of strings. -/
def joinSep (sep : Str) : List Str → Str
  | [] => []
  | [x] => x
  | x :: xs => x ++ sep ++ joinSep sep xs

/-- Count of non-overlapping occurrences of `pat` in `l`, scanning left to
right — the number of matches `new RegExp(pat, "g")` finds when `pat` has
no regex metacharacters.  As in JavaScript, the empty pattern matches once
at every position (`l.length + 1` matches). -/
def countOccAux (pat : Str) : Nat → Str → Nat
  | 0, _ => 0
  | _, [] => 0
  | fuel + 1, c :: cs =>
    if pat.isPrefixOf (c :: cs) then 1 + countOccAux pat fuel ((c :: cs).drop pat.length)
    else countOccAux pat fuel cs

/-- Occurrence count: a nonempty pattern consumes at least one character per
match, so fuel equal to the input length always suffices. -/
def countOcc (pat l : Str) : Nat :=
  if pat = [] then l.length + 1 else countOccAux pat l.length l

/-- Characters with a special meaning in a JavaScript regular expression
pattern.  A keyword containing one of these is not interpreted literally by
`new RegExp(keyword, "g")` (and some, such as a lone `(`, make the
constructor throw a `SyntaxError`). -/
def regexMeta (c : Char) : Bool :=
  c = '\\' || c = '^' || c = '$' || c = '.' || c = '*' || c = '+' ||
  c = '?' || c = '(' || c = ')' || c = '[' || c = ']' || c = '|' ||
  c = lbrace || c = rbrace

/-- Dynamically typed JSON value, the result type of `JSON.parse`.
JavaScript objects keep their properties in insertion order; duplicate keys
in a JSON text resolve to the *last* occurrence, which `jsGet` honours. -/
inductive Json where
  | null : Json
  | bool (b : Bool) : Json
  | num (q : ℚ) : Json
  | str (s : Str) : Json
  | arr (elems : List Json) : Json
  | obj (fields : List (Str × Json)) : Json

/-- Property lookup `j[key]` on a parsed JSON value: defined only on
objects (every other value has no such own property, so the lookup yields
`undefined`, modelled as `none`).  The last binding of a duplicated key
wins, as in `JSON.parse`. -/
def jsGet (j : Json) (key : Str) : Option Json :=
  match j with
  | Json.obj fields => (fields.reverse.find? (fun f => f.1 == key)).map (·.2)
  | _ => none

/-- Truthiness of a JSON value under JavaScript coercion: `null`, `false`,
`0` and the empty string are falsy; every array and object is truthy. -/
def jsTruthy : Json → Bool
  | Json.null => false
  | Json.bool b => b
  | Json.num q => q != 0
  | Json.str s => !s.isEmpty
  | Json.arr _ => true
  | Json.obj _ => true

/-- Model of `x || d` where `x` is a possibly-undefined JSON value:
the value itself when it is present and truthy, otherwise the default. -/
def jsOr (x : Option Json) (d : Json) : Json :=
  match x with
  | some j => if jsTruthy j then j else d
  | none => d

/-- Whitespace accepted between JSON tokens. -/
def jsonWs (c : Char) : Bool := c = ' ' || c = '\t' || c = '\n' || c = '\r'

/-- Skip inter-token whitespace. -/
def skipWs (l : Str) : Str := l.dropWhile jsonWs

/-- Hexadecimal digit value, for `\uXXXX` escapes. -/
def hexVal (c : Char) : Option Nat :=
  if '0' ≤ c ∧ c ≤ '9' then some (c.toNat - '0'.toNat)
  else if 'a' ≤ c ∧ c ≤ 'f' then some (c.toNat - 'a'.toNat + 10)
  else if 'A' ≤ c ∧ c ≤ 'F' then some (c.toNat - 'A'.toNat + 10)
  else none

/-- Parse the body of a JSON string literal (the opening quote already
consumed), returning the decoded string and the remaining input.  Raw
control characters are rejected and unknown escapes fail, as in
`JSON.parse`; a `\uXXXX` escape is decoded to the corresponding code unit
(surrogate pairing is not modelled — no verified claim depends on it). -/
def parseStrAux : Nat → Str → Option (Str × Str)
  | 0, _ => none
  | _, [] => none
  | fuel + 1, c :: cs =>
    if c = '"' then some ([], cs)
    else if c = '\\' then
      match cs with
      | [] => none
      | e :: cs2 =>
        let dec : Option (Char × Str) :=
          if e = '"' then some ('"', cs2)
          else if e = '\\' then some ('\\', cs2)
          else if e = '/' then some ('/', cs2)
          else if e = 'b' then some (Char.ofNat 8, cs2)
          else if e = 'f' then some (Char.ofNat 12, cs2)
          else if e = 'n' then some ('\n', cs2)
          else if e = 'r' then some ('\r', cs2)
          else if e = 't' then some ('\t', cs2)
          else if e = 'u' then
            match cs2 with
            | h1 :: h2 :: h3 :: h4 :: cs3 =>
              match hexVal h1, hexVal h2, hexVal h3, hexVal h4 with
              | some a, some b, some c', some d =>
                some (Char.ofNat (((a * 16 + b) * 16 + c') * 16 + d), cs3)
              | _, _, _, _ => none
            | _ => none
          else none
        match dec with
        | some (ch, rest) => (parseStrAux fuel rest).map (fun p => (ch :: p.1, p.2))
        | none => none
    else if c.toNat < 32 then none
    else (parseStrAux fuel cs).map (fun p => (c :: p.1, p.2))

/-- Entry point for JSON string-literal bodies; the fuel bound exceeds the
input length, so it never runs out. -/
def parseStr (l : Str) : Option (Str × Str) := parseStrAux (l.length + 1) l

/-- Parse an unsigned decimal digit run, returning its value, the number of
digits, and the rest. -/
def parseDigits : Str → Nat → Nat → Nat × Nat × Str
  | [], acc, n => (acc, n, [])
  | c :: cs, acc, n =>
    if '0' ≤ c ∧ c ≤ '9' then parseDigits cs (acc * 10 + (c.toNat - '0'.toNat)) (n + 1)
    else (acc, n, c :: cs)

/-- Parse a JSON number per the JSON grammar (optional minus, integer part
without leading zeros, optional fraction, optional exponent), as an exact
rational. -/
def parseNum (l : Str) : Option (ℚ × Str) :=
  let (neg, l1) :=
    match l with
    | '-' :: r => (true, r)
    | _ => (false, l)
  let (ip, ilen, l2) := parseDigits l1 0 0
  if ilen = 0 then none
  else if decide (ilen > 1) && (match l1 with | '0' :: _ => true | _ => false) then none
  else
    let (fp, flen, l3) :=
      match l2 with
      | '.' :: r =>
        let (v, n, rest) := parseDigits r 0 0
        (v, n, if n = 0 then '.' :: r else rest)
      | _ => (0, 0, l2)
    if (match l2 with | '.' :: _ => flen == 0 | _ => false : Bool) then none
    else
      let (ex, elen, eneg, l4) :=
        match l3 with
        | 'e' :: r | 'E' :: r =>
          let (sgn, r2) :=
            match r with
            | '+' :: r3 => (false, r3)
            | '-' :: r3 => (true, r3)
            | _ => (false, r)
          let (v, n, rest) := parseDigits r2 0 0
          (v, n, sgn, rest)
        | _ => (0, 1, false, l3)
      if elen = 0 then none
      else
        let mantissa : ℚ := (ip : ℚ) + (fp : ℚ) / ((10 : ℚ) ^ flen)
        let scaled : ℚ := if eneg then mantissa / ((10 : ℚ) ^ ex) else mantissa * ((10 : ℚ) ^ ex)
        some (if neg then -scaled else scaled, l4)

mutual

/-- Fuel-based recursive-descent parser for a JSON value; the fuel bounds
the nesting depth, and `jsonParse` supplies enough fuel for any input. -/
def parseVal : Nat → Str → Option (Json × Str)
  | 0, _ => none
  | fuel + 1, input =>
    match skipWs input with
    | [] => none
    | c :: cs =>
      if c = 'n' then
        if ("ull".toList).isPrefixOf cs then some (Json.null, cs.drop 3) else none
      else if c = 't' then
        if ("rue".toList).isPrefixOf cs then some (Json.bool true, cs.drop 3) else none
      else if c = 'f' then
        if ("alse".toList).isPrefixOf cs then some (Json.bool false, cs.drop 4) else none
      else if c = '"' then
        (parseStr cs).map (fun p => (Json.str p.1, p.2))
      else if c = '[' then
        match skipWs cs with
        | ']' :: rest => some (Json.arr [], rest)
        | other => (parseElems fuel other).map (fun p => (Json.arr p.1, p.2))
      else if c = lbrace then
        match skipWs cs with
        | d :: rest =>
          if d = rbrace then some (Json.obj [], rest)
          else (parseFields fuel (d :: rest)).map (fun p => (Json.obj p.1, p.2))
        | [] => none
      else
        (parseNum (c :: cs)).map (fun p => (Json.num p.1, p.2))

/-- Parse one or more comma-separated array elements up to `]`. -/
def parseElems : Nat → Str → Option (List Json × Str)
  | 0, _ => none
  | fuel + 1, input =>
    match parseVal fuel input with
    | none => none
    | some (v, rest) =>
      match skipWs rest with
      | ',' :: rest2 => (parseElems fuel rest2).map (fun p => (v :: p.1, p.2))
      | ']' :: rest2 => some ([v], rest2)
      | _ => none

/-- Parse one or more comma-separated object members up to the closing
brace. -/
def parseFields : Nat → Str → Option (List (Str × Json) × Str)
  | 0, _ => none
  | fuel + 1, input =>
    match skipWs input with
    | '"' :: cs =>
      match parseStr cs with
      | none => none
      | some (key, rest) =>
        match skipWs rest with
        | ':' :: rest2 =>
          match parseVal fuel rest2 with
          | none => none
          | some (v, rest3) =>
            match skipWs rest3 with
            | ',' :: rest4 => (parseFields fuel rest4).map (fun p => ((key, v) :: p.1, p.2))
            | d :: rest4 =>
              if d = rbrace then some ([(key, v)], rest4) else none
            | [] => none
        | _ => none
    | _ => none

end

/-- Model of `JSON.parse`: parse a complete JSON text (only trailing
whitespace may remain).  `none` models the `SyntaxError` throw. -/
def jsonParse (l : Str) : Option Json :=
  match parseVal (l.length + 1) l with
  | some (j, rest) => if (skipWs rest).isEmpty then some j else none
  | none => none

/-- Model of `text.match(/\{[\s\S]*\}/)`: the (greedy) match runs from the
first left brace to the last right brace at or after it; `none` when there
is no such pair. -/
def extractBraces (l : Str) : Option Str :=
  let fromBrace := l.dropWhile (fun c => c ≠ lbrace)
  let r := fromBrace.reverse.dropWhile (fun c => c ≠ rbrace)
  if r.isEmpty then none else some r.reverse

/-- Model of `text.match(/\[[\s\S]*\]/)`: from the first `[` to the last
`]` at or after it. -/
def extractBrackets (l : Str) : Option Str :=
  let fromB := l.dropWhile (fun c => c ≠ '[')
  let r := fromB.reverse.dropWhile (fun c => c ≠ ']')
  if r.isEmpty then none else some r.reverse

/-!
### OptimizerAgent (src/agents/OptimizerAgent.ts)

The `GeneratedCode` bundle (interface in CodeAgent.ts) and the parts of the
optimizer exercised by the claims: the performance rewrite pass
(`optimizePerformance`, lines 329-417), its unused-import removal step
(`removeUnusedImports`, lines 419-454), and the three score functions
(lines 514-552).  File maps (`{ [key: string]: string }`) are modelled as
association lists in insertion order, matching `Object.keys`/`Object.values`
enumeration order.
-/

/-- Frontend part of a `GeneratedCode` bundle. -/
structure FrontendCode where
  components : List (Str × Str)
  pages : List (Str × Str)
  styles : List (Str × Str)
  config : List (Str × Json)

/-- Backend part of a `GeneratedCode` bundle. -/
structure BackendCode where
  routes : List (Str × Str)
  models : List (Str × Str)
  middleware : List (Str × Str)
  config : List (Str × Json)

/-- Database part of a `GeneratedCode` bundle. -/
structure DatabaseCode where
  schema : Str
  migrations : List Str
  seeds : List Str

/-- Deployment part of a `GeneratedCode` bundle. -/
structure DeploymentCode where
  dockerfile : Str
  dockerCompose : Str
  vercelConfig : Json

/-- The `GeneratedCode` bundle produced by the Code Generation stage. -/
structure GeneratedCode where
  frontend : FrontendCode
  backend : BackendCode
  database : DatabaseCode
  deployment : DeploymentCode

/-- Global replacement modelling `content.replace(/<img([^>]*)>/g,
'<img$1 loading="lazy" />')`: scanning left to right, each match runs from
a literal `<img` over the longest run of non-`>` characters to a `>`, and
the replacement re-inserts the captured attributes.  When a `<img` is not
followed by any `>`, nothing further can match.  Fuel equal to the input
length always suffices, as every step consumes at least one character. -/
def imgLazyAux : Nat → Str → Str
  | 0, l => l
  | _ + 1, [] => []
  | fuel + 1, c :: cs =>
    if ("<img".toList).isPrefixOf (c :: cs) then
      let rest := (c :: cs).drop 4
      if rest.any (fun d => d = '>') then
        let attrs := rest.takeWhile (fun d => d ≠ '>')
        let tl := (rest.dropWhile (fun d => d ≠ '>')).drop 1
        ("<img".toList) ++ attrs ++ (" loading=\"lazy\" />".toList) ++ imgLazyAux fuel tl
      else c :: cs
    else c :: imgLazyAux fuel cs

/-- Entry point of the `<img>` lazy-loading rewrite. -/
def imgLazy (l : Str) : Str := imgLazyAux l.length l

/-- Leftmost match of the regex `/import\s*{([^}]+)}\s*from/` against a
line, returning the first capture group (the raw import list between the
braces); `none` when the line does not match. -/
def importMatchAt (l : Str) : Option Str :=
  if ("import".toList).isPrefixOf l then
    match (l.drop 6).dropWhile jsWhite with
    | b :: r2 =>
      if b = lbrace then
        if (r2.takeWhile (fun d => d ≠ rbrace)).isEmpty then none
        else
          match r2.dropWhile (fun d => d ≠ rbrace) with
          | b2 :: r3 =>
            if b2 = rbrace ∧ ("from".toList).isPrefixOf (r3.dropWhile jsWhite) then
              some (r2.takeWhile (fun d => d ≠ rbrace))
            else none
          | [] => none
      else none
    | [] => none
  else none

/-- Scan every start position, leftmost first, for an import-list match. -/
def importMatch : Str → Option Str
  | [] => none
  | c :: cs =>
    match importMatchAt (c :: cs) with
    | some cap => some cap
    | none => importMatch cs

/-- Split a captured import list on commas and trim each binding, as in
`importMatch[1].split(',').map(imp => imp.trim())`. -/
def parseImports (cap : Str) : List Str := (jsSplit ',' cap).map jsTrim

/-- The `usedImports` set built by `removeUnusedImports`: every binding of
every import line that occurs somewhere in the content (which, since each
such line is itself part of the content, is every binding) and does not
contain `*`. -/
def usedImportsOf (content : Str) (lines : List Str) : List Str :=
  lines.foldl
    (fun acc line =>
      match importMatch line with
      | none => acc
      | some cap =>
        (parseImports cap).foldl
          (fun acc2 imp =>
            if jsIncludes content imp && !jsIncludes imp ("*".toList) then acc2 ++ [imp]
            else acc2)
          acc)
    []

/-- Rewrite of a single line by `removeUnusedImports`: an import line all of
whose bindings are unused becomes empty, one with some unused bindings keeps
only the used ones, and every other line is unchanged. -/
def pruneImportLine (used : List Str) (line : Str) : Str :=
  match importMatch line with
  | none => line
  | some cap =>
    let imports := parseImports cap
    let usedInLine := imports.filter (fun imp => used.contains imp)
    if usedInLine.isEmpty then []
    else if usedInLine.length < imports.length then
      jsReplaceFirst line (lbrace :: cap ++ [rbrace])
        (lbrace :: joinSep (", ".toList) usedInLine ++ [rbrace])
    else line

/-- Model of `OptimizerAgent.removeUnusedImports` (lines 419-454): split
into lines, drop unused import bindings, then rejoin after filtering out
every line whose trimmed form is empty. -/
def removeUnusedImports (content : Str) : Str :=
  let lines := jsSplit '\n' content
  let used := usedImportsOf content lines
  joinSep (String.toList "\n")
    ((lines.map (pruneImportLine used)).filter (fun line => !(jsTrim line).isEmpty))

/-- Model of the frontend-component part of
`OptimizerAgent.optimizePerformance` (lines 335-381): the six sequential
rewrites applied to one component file. -/
def perfComponentPre (filename content : Str) : Str :=
  let c1 :=
    if jsIncludes content ("export default".toList) && !jsIncludes content ("React.memo".toList)
    then jsReplaceFirst content ("export default".toList) ("export default React.memo(".toList)
           ++ (")".toList)
    else content
  let c2 :=
    if jsIncludes c1 ("useState".toList) && !jsIncludes c1 ("useMemo".toList)
    then jsReplaceFirst c1 ("import React".toList)
           (("import React, \x7b useMemo, useCallback \x7d").toList)
    else c1
  let c3 :=
    if decide (c2.length > 1000) && !jsIncludes c2 ("lazy".toList)
    then jsReplaceFirst c2 ("import React".toList)
           (("import React, \x7b lazy, Suspense \x7d").toList)
    else c2
  let c4 := imgLazy c3
  let c5 :=
    if jsIncludes c4 ("export default".toList) && decide (c4.length > 2000)
    then
      let nm := jsReplaceFirst (jsReplaceFirst filename (".tsx".toList) []) (".ts".toList) []
      jsReplaceFirst c4 (("export default ".toList) ++ nm)
        (("const ".toList) ++ nm ++ (" = lazy(() => import(\x27./".toList) ++ nm
          ++ ("\x27));\nexport default ".toList) ++ nm)
    else c4
  c5

/-- Full per-component performance rewrite: the five insertion steps above
followed by the unused-import removal (line 378). -/
def perfComponent (filename content : Str) : Str :=
  removeUnusedImports (perfComponentPre filename content)

/-- Model of the backend-route part of `OptimizerAgent.optimizePerformance`
(lines 384-414): caching header, compression middleware and rate-limit
middleware insertion for one route file. -/
def perfRoute (content : Str) : Str :=
  let c1 :=
    if jsIncludes content ("res.json(".toList) && !jsIncludes content ("Cache-Control".toList)
    then jsReplaceFirst content ("res.json(".toList)
           ("res.set(\"Cache-Control\", \"public, max-age=300\");\n    res.json(".toList)
    else content
  let c2 :=
    if !jsIncludes c1 ("compression".toList)
    then jsReplaceFirst (("import compression from \"compression\";\n".toList) ++ c1)
           ("app.use(express.json())".toList)
           ("app.use(compression());\napp.use(express.json())".toList)
    else c1
  let c3 :=
    if !jsIncludes c2 ("rateLimit".toList)
    then jsReplaceFirst (("import rateLimit from \"express-rate-limit\";\n".toList) ++ c2)
           ("app.use(express.json())".toList)
           (("app.use(rateLimit(\x7b windowMs: 15 * 60 * 1000, max: 100 \x7d));\napp.use(express.json())").toList)
    else c2
  c3

/-- Model of `OptimizerAgent.optimizePerformance` (lines 329-417): rewrite
every frontend component and every backend route of the bundle. -/
def optimizePerformance (code : GeneratedCode) : GeneratedCode :=
  { code with
    frontend := { code.frontend with
      components := code.frontend.components.map (fun p => (p.1, perfComponent p.1 p.2)) }
    backend := { code.backend with
      routes := code.backend.routes.map (fun p => (p.1, perfRoute p.2)) } }

/-- Model of `OptimizerAgent.calculatePerformanceScore` (lines 514-525):
start at 100, apply fixed penalties per frontend component, floor at 0. -/
def calculatePerformanceScore (code : GeneratedCode) : Int :=
  let score := code.frontend.components.foldl
    (fun (s : Int) (p : Str × Str) =>
      let content := p.2
      let s1 := if jsIncludes content ("console.log".toList) then s - 5 else s
      let s2 := if jsIncludes content ("useEffect".toList)
                   && !jsIncludes content ("[]".toList) then s1 - 10 else s1
      if !jsIncludes content ("React.memo".toList) then s2 - 5 else s2)
    100
  max 0 score

/-- Model of `OptimizerAgent.calculateSecurityScore` (lines 527-539). -/
def calculateSecurityScore (code : GeneratedCode) : Int :=
  let score := code.backend.routes.foldl
    (fun (s : Int) (p : Str × Str) =>
      let content := p.2
      let s1 := if !jsIncludes content ("cors".toList) then s - 10 else s
      let s2 := if !jsIncludes content ("validate".toList) then s1 - 15 else s1
      let s3 := if jsIncludes content ("eval(".toList) then s2 - 50 else s2
      if jsIncludes content ("innerHTML".toList) then s3 - 20 else s3)
    100
  max 0 score

/-- Model of `OptimizerAgent.calculateMaintainabilityScore`
(lines 541-552). -/
def calculateMaintainabilityScore (code : GeneratedCode) : Int :=
  let score := code.frontend.components.foldl
    (fun (s : Int) (p : Str × Str) =>
      let content := p.2
      let s1 := if !jsIncludes content ("interface".toList) then s - 10 else s
      let s2 := if jsIncludes content ("any".toList) then s1 - 5 else s1
      if decide (content.length > 500) then s2 - 5 else s2)
    100
  max 0 score

/-!
### ResearchAgent (src/agents/ResearchAgent.ts)

Environment-parameterised model of the research stage.  Each network call
site gets one oracle field: the two direct `llama3LLM.generate` calls
(keyword extraction, result analysis), the DuckDuckGo page fetch+parse, the
three alternative engines, the cache file, and the AI-knowledge `generate`
call inside the fallback chain.  Results parsed out of a search page are
supplied pre-extracted as `RawResult`s (title/url/snippet as read off the
page by the structural selectors); an `Except.error` oracle value models
that call throwing.

The per-result `insights`/`codePatterns`/`uiPatterns` fields (computed by
total regex extractions over the snippet, lines 147-203) are omitted from
the modelled result objects: no verified claim depends on their values, and
their extraction cannot throw.
-/

/-- One hit extracted from a search result page before the truthiness
filter. -/
structure RawResult where
  title : Str
  url : Str
  snippet : Str

/-- Oracle environment of one `researchApp` run. -/
structure ResearchEnv where
  keywordsResp : Except Str Str
  ddg : Except Str (List RawResult)
  altEngines : List (Except Str (List RawResult))
  cacheFile : Option (List (Str × List Json))
  aiResp : Except Str Str
  analysisResp : Except Str Str

/-- Per-keyword relevance accumulation of `calculateRelevance`
(lines 134-145).  Each keyword is lowercased (`none` models the `TypeError`
thrown by `.toLowerCase()` on a non-string keyword) and compiled with
`new RegExp(keyword, "g")`; the model covers keywords free of regex
metacharacters, for which the match count is the literal occurrence count —
a metacharacter keyword is not counted literally and can even make the
constructor throw (a lone `(` is a `SyntaxError`), which `none` models. -/
def relevanceScore (contentLower : Str) : List Json → Option ℚ
  | [] => some 0
  | k :: ks =>
    match k with
    | Json.str s =>
      let kl := jsLower s
      if kl.any regexMeta then none
      else (relevanceScore contentLower ks).map
        (fun r => (countOcc kl contentLower : ℚ) * (1 / 10) + r)
    | _ => none

/-- Model of `ResearchAgent.calculateRelevance` (lines 134-145): the summed
per-keyword score, capped at `1.0` by `Math.min`. -/
def calculateRelevance (content : Str) (keywords : List Json) : Option ℚ :=
  (relevanceScore (jsLower content) keywords).map (fun s => if s ≤ 1 then s else 1)

/-- Protocol-relative URL fix-up: `url.startsWith('//') ? 'https:' + url :
url`. -/
def fixUrl (url : Str) : Str :=
  if ("//".toList).isPrefixOf url then ("https:".toList) ++ url else url

/-- Build one modelled search-result object from a raw page hit;
`none` models `calculateRelevance` throwing inside the extraction loop. -/
def mkResult (keywords : List Json) (r : RawResult) : Option Json :=
  (calculateRelevance r.snippet keywords).map (fun rel =>
    Json.obj
      [(("url".toList), Json.str (fixUrl r.url)),
       (("title".toList), Json.str r.title),
       (("content".toList), Json.str r.snippet),
       (("relevance".toList), Json.num rel)])

/-- Process the (already `take 5`-limited) raw hits of one result page:
hits failing the `title && url && snippet` truthiness check are skipped,
and a throw inside the loop aborts it, keeping the results pushed so far
(second component `true`). -/
def processRaws (keywords : List Json) : List RawResult → List Json × Bool
  | [] => ([], false)
  | r :: rs =>
    if !r.title.isEmpty && !r.url.isEmpty && !r.snippet.isEmpty then
      match mkResult keywords r with
      | none => ([], true)
      | some j =>
        let rest := processRaws keywords rs
        (j :: rest.1, rest.2)
    else processRaws keywords rs

/-- Relevance key used to rank modelled results. -/
def relKey (j : Json) : ℚ :=
  match jsGet j ("relevance".toList) with
  | some (Json.num q) => q
  | _ => 0

/-- Insert into a descending-by-relevance list, keeping earlier elements
first among ties. -/
def insertByRel (j : Json) : List Json → List Json
  | [] => [j]
  | x :: xs => if relKey j > relKey x then j :: x :: xs else x :: insertByRel j xs

/-- Model of `results.sort((a, b) => b.relevance - a.relevance)`: a stable
descending sort; a result without a numeric `relevance` ranks as `0` (the
comparator then yields `NaN`, whose engine-level treatment no verified
claim depends on). -/
def sortByRelDesc (l : List Json) : List Json := l.foldr insertByRel []

/-- Fuel-based digit rendering of a natural number. -/
def natToStrAux : Nat → Nat → Str
  | 0, _ => []
  | _ + 1, 0 => []
  | fuel + 1, n => natToStrAux fuel (n / 10) ++ [Char.ofNat (48 + n % 10)]

/-- Decimal rendering of a natural number. -/
def natToStr (n : Nat) : Str := if n = 0 then ("0".toList) else natToStrAux (n + 1) n

/-- Decimal rendering of an integer. -/
def intToStr (i : Int) : Str :=
  if i < 0 then '-' :: natToStr i.natAbs else natToStr i.natAbs

mutual

/-- String conversion applied by `Array.prototype.join` to an element:
`null` renders empty, booleans as `true`/`false`, arrays join recursively
with commas, objects as `[object Object]`.  A non-integer number renders
only approximately (by its floor) — no verified claim depends on numeric
keyword rendering. -/
def jsonToJoinStr : Json → Str
  | Json.null => []
  | Json.bool true => ("true".toList)
  | Json.bool false => ("false".toList)
  | Json.num q => intToStr q.floor
  | Json.str s => s
  | Json.arr xs => jsonJoinComma xs
  | Json.obj _ => ("[object Object]".toList)

/-- Comma join of array elements, as JavaScript array-to-string. -/
def jsonJoinComma : List Json → Str
  | [] => []
  | [x] => jsonToJoinStr x
  | x :: xs => jsonToJoinStr x ++ (",".toList) ++ jsonJoinComma xs

end

/-- Model of `ResearchAgent.calculateQuerySimilarity` (lines 359-365):
Jaccard similarity of the space-separated word sets. -/
def calculateQuerySimilarity (q1 q2 : Str) : ℚ :=
  let w1 := (jsSplit ' ' q1).dedup
  let w2 := (jsSplit ' ' q2).dedup
  let inter := w1.filter (fun w => w2.contains w)
  let union := (w1 ++ w2).dedup
  (inter.length : ℚ) / (union.length : ℚ)

/-- Scan the cached queries in file order and return the stored results of
the first one whose similarity exceeds `0.7` (returned as stored, even when
empty); no sufficiently similar entry yields `[]`. -/
def cacheLookup (query : Str) : List (Str × List Json) → List Json
  | [] => []
  | (cq, results) :: rest =>
    if calculateQuerySimilarity query cq > 7 / 10 then results
    else cacheLookup query rest

/-- Model of `ResearchAgent.searchWithCachedResults` (lines 293-318): a
missing or corrupt cache file (`none`) yields `[]`; otherwise the stored
results of the first similar-enough cached query. -/
def searchWithCachedResults (env : ResearchEnv) (keywords : List Json) : List Json :=
  match env.cacheFile with
  | none => []
  | some entries =>
    cacheLookup (jsLower (joinSep (" ".toList) (keywords.map jsonToJoinStr))) entries

/-- Model of `ResearchAgent.searchWithAIKnowledge` (lines 320-357): a
failing `generate` call, an answer with no `[...]` payload, or an
unparseable payload all yield `[]` (the throw is caught locally); a parsed
array is returned as-is. -/
def searchWithAIKnowledge (env : ResearchEnv) (_keywords : List Json) : List Json :=
  match env.aiResp with
  | Except.error _ => []
  | Except.ok content =>
    match extractBrackets content with
    | none => []
    | some s =>
      match jsonParse s with
      | some (Json.arr xs) => xs
      | _ => []

/-- Model of `ResearchAgent.searchWithAlternativeEngines` (lines 238-291):
each engine is tried in order inside its own try/catch; a throwing fetch or
a throw while extracting results moves on to the next engine, a nonempty
extracted result list is returned, and exhausting the engines yields
`[]`. -/
def engineResults (keywords : List Json) : List (Except Str (List RawResult)) → List Json
  | [] => []
  | e :: es =>
    match e with
    | Except.error _ => engineResults keywords es
    | Except.ok raws =>
      let pr := processRaws keywords (raws.take 5)
      if pr.2 then engineResults keywords es
      else if pr.1.isEmpty then engineResults keywords es
      else pr.1

/-- Model of `ResearchAgent.fallbackSearch` (lines 205-236): the three
alternative strategies in order, stopping at the first nonempty result
list; every failure path degrades to `[]`. -/
def fallbackSearch (env : ResearchEnv) (keywords : List Json) : List Json :=
  let r1 := engineResults keywords env.altEngines
  if !r1.isEmpty then r1
  else
    let r2 := searchWithCachedResults env keywords
    if !r2.isEmpty then r2
    else searchWithAIKnowledge env keywords

/-- Model of `ResearchAgent.searchWeb` (lines 82-132): the DuckDuckGo page
is fetched and parsed inside a try/catch; a throw (including one from
`calculateRelevance` inside the extraction loop) keeps the results pushed
so far and appends the fallback chain, and an empty extraction also appends
the fallback chain; the result is ranked by descending relevance. -/
def searchWeb (env : ResearchEnv) (keywords : List Json) : List Json :=
  let step : List Json × Bool :=
    match env.ddg with
    | Except.error _ => ([], true)
    | Except.ok raws => processRaws keywords (raws.take 5)
  let results :=
    if step.2 || step.1.isEmpty then step.1 ++ fallbackSearch env keywords else step.1
  sortByRelDesc results

/-- Fallback keyword extraction (lines 76-79): lowercased prompt words
longer than 3 characters, first 5. -/
def fallbackKeywords (prompt : Str) : List Json :=
  (((jsSplit ' ' (jsLower prompt)).filter (fun w => w.length > 3)).take 5).map Json.str

/-- Model of `ResearchAgent.extractKeywords` (lines 47-80).  The
`llama3LLM.generate` call is *outside* the try/catch, so its failure
propagates; only JSON extraction and parsing fall back to the simple
keyword extraction. -/
def extractKeywords (env : ResearchEnv) (prompt : Str) : Except Str (List Json) :=
  match env.keywordsResp with
  | Except.error e => Except.error e
  | Except.ok content =>
    match extractBrackets content with
    | some s =>
      match jsonParse s with
      | some (Json.arr xs) => Except.ok xs
      | some _ => Except.ok (fallbackKeywords prompt)
      | none => Except.ok (fallbackKeywords prompt)
    | none => Except.ok (fallbackKeywords prompt)

/-- The static fallback `ResearchSummary` of `analyzeResults`
(lines 408-415), as the JSON object value it denotes. -/
def defaultSummaryJson : Json :=
  Json.obj
    [(("overallInsights".toList), Json.arr [Json.str ("Research completed successfully".toList)]),
     (("recommendedTechStack".toList),
        Json.arr [Json.str ("React".toList), Json.str ("TypeScript".toList),
                  Json.str ("Tailwind CSS".toList)]),
     (("designPatterns".toList),
        Json.arr [Json.str ("Component-based architecture".toList),
                  Json.str ("Responsive design".toList)]),
     (("codeExamples".toList),
        Json.arr [Json.str ("Modern React patterns".toList),
                  Json.str ("TypeScript interfaces".toList)]),
     (("bestPractices".toList),
        Json.arr [Json.str ("Code organization".toList), Json.str ("Error handling".toList)]),
     (("potentialIssues".toList),
        Json.arr [Json.str ("Performance optimization".toList),
                  Json.str ("Accessibility".toList)])]

/-- Whether a summary value carries all six `ResearchSummary` fields. -/
def hasSixFields (j : Json) : Bool :=
  (jsGet j ("overallInsights".toList)).isSome &&
  (jsGet j ("recommendedTechStack".toList)).isSome &&
  (jsGet j ("designPatterns".toList)).isSome &&
  (jsGet j ("codeExamples".toList)).isSome &&
  (jsGet j ("bestPractices".toList)).isSome &&
  (jsGet j ("potentialIssues".toList)).isSome

/-- Model of `ResearchAgent.analyzeResults` (lines 367-416).  The
`llama3LLM.generate` call is outside the try/catch and its failure
propagates; a response with a `{...}` payload that parses is returned
*as-is* (whatever fields the payload has), and a missing or unparseable
payload falls back to the static default summary.  The `results` argument
only shapes the prompt sent to the generation oracle. -/
def analyzeResults (env : ResearchEnv) (_results : List Json) (_prompt : Str) :
    Except Str Json :=
  match env.analysisResp with
  | Except.error e => Except.error e
  | Except.ok content =>
    match extractBraces content with
    | some s =>
      match jsonParse s with
      | some j => Except.ok j
      | none => Except.ok defaultSummaryJson
    | none => Except.ok defaultSummaryJson

/-- Model of `ResearchAgent.researchApp` (lines 31-45): keyword extraction,
web search, then analysis.  The `plan` argument only shapes the keyword
prompt sent to the generation oracle. -/
def researchApp (env : ResearchEnv) (prompt : Str) (_plan : Option Json) :
    Except Str Json :=
  match extractKeywords env prompt with
  | Except.error e => Except.error e
  | Except.ok keywords =>
    let results := searchWeb env keywords
    analyzeResults env results prompt

/-!
### PlannerAgent (PlannerAgent.ts)

Model of `parsePlan` (lines 430-481) and `refinePlan` (lines 516-547).
Since `JSON.parse` output is dynamically typed, every field of the built
plan is a `Json` value (the TypeScript annotations are erased at runtime);
the `structure` field is spelled `struct` (a Lean keyword).  The
model-client and its `generateText` call are oracle fields.
-/

/-- Tech-stack part of an `AppPlan` as built at runtime. -/
structure TechStackJ where
  frontend : Json
  backend : Json
  database : Json
  deployment : Json

/-- Structure part of an `AppPlan` as built at runtime. -/
structure StructJ where
  pages : Json
  components : Json
  api : Json

/-- An `AppPlan` as built at runtime by `parsePlan`. -/
structure PlanJ where
  name : Json
  description : Json
  features : Json
  techStack : TechStackJ
  struct : StructJ
  timeline : Json
  complexity : Json

/-- Capitalisation of the first character, as
`word.charAt(0).toUpperCase() + word.slice(1)`. -/
def capFirst : Str → Str
  | [] => []
  | c :: cs => Char.toUpper c :: cs

/-- Model of `PlannerAgent.generateAppName` (lines 483-493). -/
def generateAppName (prompt : Str) : Str :=
  let ws := ((jsSplit ' ' (jsLower prompt)).filter (fun w => w.length > 3)).take 2
  joinSep (" ".toList) (ws.map capFirst) ++ (" App".toList)

/-- Name generation on a dynamically typed prompt: `.toLowerCase()` on a
non-string throws a `TypeError`, modelled as `none`. -/
def generateAppNameJ : Json → Option Str
  | Json.str s => some (generateAppName s)
  | _ => none

/-- The generic fallback plan built by `parsePlan`'s catch branch
(lines 462-479), given the already generated app name. -/
def fallbackPlanWithName (nm : Str) : PlanJ :=
  { name := Json.str nm
    description := Json.str ("AI-generated app based on your request".toList)
    features := Json.arr
      [Json.str ("User interface".toList), Json.str ("Data management".toList),
       Json.str ("Responsive design".toList)]
    techStack :=
      { frontend := Json.str ("React + TypeScript + Tailwind CSS".toList)
        backend := Json.str ("Node.js + Express".toList)
        database := Json.str ("PostgreSQL".toList)
        deployment := Json.str ("Vercel".toList) }
    struct :=
      { pages := Json.arr [Json.str ("Home".toList), Json.str ("Dashboard".toList)]
        components := Json.arr
          [Json.str ("Header".toList), Json.str ("Main".toList), Json.str ("Footer".toList)]
        api := Json.arr [Json.str ("/api/data".toList)] }
    timeline := Json.str ("1-2 days".toList)
    complexity := Json.str ("simple".toList) }

/-- Model of `PlannerAgent.parsePlan` (lines 430-481).  A missing `{...}`
payload or a parse failure lands in the catch branch, which returns the
generic fallback plan; a parsed payload is normalised field by field with
`||`-defaults.  `none` models a `TypeError` escaping `parsePlan` (thrown by
`generateAppName` when the dynamically typed `originalPrompt` is not a
string — the catch branch throws it again). -/
def parsePlanM (planContent : Str) (originalPrompt : Json) : Option PlanJ :=
  match (extractBraces planContent).bind jsonParse with
  | none => (generateAppNameJ originalPrompt).map fallbackPlanWithName
  | some planData =>
    let nameVal : Option Json :=
      match jsGet planData ("name".toList) with
      | some j => if jsTruthy j then some j else (generateAppNameJ originalPrompt).map Json.str
      | none => (generateAppNameJ originalPrompt).map Json.str
    match nameVal with
    | none => none
    | some nm =>
      some
        { name := nm
          description := jsOr (jsGet planData ("description".toList))
            (Json.str ("AI-generated app".toList))
          features := jsOr (jsGet planData ("features".toList)) (Json.arr [])
          techStack :=
            { frontend := jsOr ((jsGet planData ("techStack".toList)).bind
                (fun t => jsGet t ("frontend".toList))) (Json.str ("React + TypeScript".toList))
              backend := jsOr ((jsGet planData ("techStack".toList)).bind
                (fun t => jsGet t ("backend".toList))) (Json.str ("Node.js + Express".toList))
              database := jsOr ((jsGet planData ("techStack".toList)).bind
                (fun t => jsGet t ("database".toList))) (Json.str ("PostgreSQL".toList))
              deployment := jsOr ((jsGet planData ("techStack".toList)).bind
                (fun t => jsGet t ("deployment".toList))) (Json.str ("Vercel".toList)) }
          struct :=
            { pages := jsOr ((jsGet planData ("structure".toList)).bind
                (fun t => jsGet t ("pages".toList))) (Json.arr [Json.str ("Home".toList)])
              components := jsOr ((jsGet planData ("structure".toList)).bind
                (fun t => jsGet t ("components".toList))) (Json.arr [Json.str ("App".toList)])
              api := jsOr ((jsGet planData ("structure".toList)).bind
                (fun t => jsGet t ("api".toList))) (Json.arr []) }
          timeline := jsOr (jsGet planData ("timeline".toList)) (Json.str ("1-2 days".toList))
          complexity := jsOr (jsGet planData ("complexity".toList))
            (Json.str ("simple".toList)) }

/-- Oracle environment of one `refinePlan` call: the `getModelClient`
resolution and the `generateText` call. -/
structure PlannerEnv where
  getClient : Except Str Unit
  refineResp : Except Str Str

/-- Model of `PlannerAgent.refinePlan` (lines 516-547): the whole body sits
in a try/catch whose catch returns the input plan, so a failing model-client
resolution, a failing `generateText` call, or a `TypeError` escaping
`parsePlan` all return the input plan unchanged — but `parsePlan` catches
its own parse failures internally and returns the *generic fallback plan*
(note that `parsePlan` is called with `plan.name` as the prompt). -/
def refinePlan (env : PlannerEnv) (plan : PlanJ) (_feedback : Str) : PlanJ :=
  match env.getClient with
  | Except.error _ => plan
  | Except.ok _ =>
    match env.refineResp with
    | Except.error _ => plan
    | Except.ok text =>
      match parsePlanM text plan.name with
      | some p => p
      | none => plan

/-!
### VoxlorOrchestrator (VoxlorOrchestrator.ts)

Model of `generateApp` (lines 67-129).  The five stage calls are oracle
fields; the whole pipeline sits in one try/catch, and the deployment
outcome only influences `deploymentUrl`, `errors` and `logs` — `success`
is set to `true` after the deployment branch either way.
-/

/-- An app generation request (interface lines 9-15). -/
structure AppGenerationRequest where
  prompt : Str
  platform : Str
  features : List Str
  style : Str
  targetAudience : Str

/-- Result value of `DeployAgent.deployApp` (DeployAgent.ts lines 15-21). -/
structure DeploymentResultM where
  success : Bool
  url : Option Str
  deploymentId : Option Str
  logs : List Str
  errors : List Str

/-- Result value of `OptimizerAgent.optimizeCode` (OptimizerAgent.ts
lines 9-17). -/
structure OptimizationResultM where
  success : Bool
  optimizedCode : GeneratedCode
  improvements : List Str
  issues : List Str
  performanceScore : Int
  securityScore : Int
  maintainabilityScore : Int

/-- Oracle environment of one `generateApp` run: one field per stage-agent
call, plus the timestamp-derived app id. -/
structure OrchestratorEnv where
  appId : Str
  research : Except Str Json
  plan : Except Str PlanJ
  code : Except Str GeneratedCode
  optimization : Except Str OptimizationResultM
  deploy : Except Str DeploymentResultM

/-- The orchestrator's result record (interface lines 17-26). -/
structure AppGenerationResult where
  success : Bool
  appId : Str
  deploymentUrl : Option Str
  code : Option GeneratedCode
  research : Option Json
  optimization : Option OptimizationResultM
  errors : List Str
  logs : List Str

/-- The catch branch's log line. -/
def errLine (e : Str) : Str := ("❌ Error: ".toList) ++ e

/-- Model of `VoxlorOrchestrator.generateApp` (lines 67-129). -/
def generateApp (env : OrchestratorEnv) (_request : AppGenerationRequest) :
    AppGenerationResult :=
  let r0 : AppGenerationResult :=
    { success := false, appId := env.appId, deploymentUrl := none, code := none,
      research := none, optimization := none, errors := [], logs := [] }
  match env.research with
  | Except.error e => { r0 with errors := [e], logs := [errLine e] }
  | Except.ok research =>
    let logs1 := [("✅ Research completed".toList)]
    match env.plan with
    | Except.error e =>
      { r0 with research := some research, errors := [e], logs := logs1 ++ [errLine e] }
    | Except.ok _plan =>
      let logs2 := logs1 ++ [("✅ App structure planned".toList)]
      match env.code with
      | Except.error e =>
        { r0 with research := some research, errors := [e], logs := logs2 ++ [errLine e] }
      | Except.ok code =>
        let logs3 := logs2 ++ [("✅ Code generated".toList)]
        match env.optimization with
        | Except.error e =>
          { r0 with
            research := some research
            code := some code
            errors := [e]
            logs := logs3 ++ [errLine e] }
        | Except.ok optimization =>
          let logs4 := logs3 ++ [("✅ Code optimized".toList)]
          match env.deploy with
          | Except.error e =>
            { r0 with
              research := some research
              code := some code
              optimization := some optimization
              errors := [e]
              logs := logs4 ++ [errLine e] }
          | Except.ok deployment =>
            let okDeploy := deployment.success &&
              (match deployment.url with
               | some u => !u.isEmpty
               | none => false)
            { r0 with
              success := true
              research := some research
              code := some code
              optimization := some optimization
              deploymentUrl := if okDeploy then deployment.url else none
              errors := if okDeploy then [] else [("Deployment failed".toList)]
              logs := logs4 ++
                [if okDeploy then ("✅ App deployed successfully".toList)
                 else ("❌ Deployment failed".toList)] }

/-!
### DeployAgent (src/agents/DeployAgent.ts)

Model of `checkDeploymentStatus` (lines 536-563) with its four per-provider
checkers (lines 565-666) and of `rollbackDeployment` (lines 668-688) with
its four per-provider rollbacks (lines 690-817).  Tokens and every provider
API response are oracle fields.  A rollback's observable provider side
effect — which previous deployment the provider is asked to
promote/restore — is returned as the second component of
`rollbackDeployment`'s result (`none` when no such call is made).
-/

/-- Deployment status as reported by `checkDeploymentStatus`. -/
inductive DeployStatus where
  | building : DeployStatus
  | ready : DeployStatus
  | error : DeployStatus
deriving DecidableEq

/-- Result record of `checkDeploymentStatus`. -/
structure StatusInfo where
  status : DeployStatus
  url : Option Str
  logs : List Str
deriving DecidableEq

/-- Vercel deployment-status API response body (the fields read by
`checkVercelStatus`). -/
structure VercelStatusData where
  readyState : Str
  url : Option Str
  logs : Option (List Str)

/-- Netlify site API response body (the fields read by
`checkNetlifyStatus`). -/
structure NetlifyStatusData where
  state : Str
  url : Option Str
  deployLog : Option (List Str)

/-- Railway deployment query response body (the fields read by
`checkRailwayStatus`). -/
structure RailwayStatusData where
  status : Str
  url : Option Str
  logs : Option (List Str)

/-- One entry of the Vercel deployments listing used by `rollbackVercel`. -/
structure VercelDeploymentRec where
  uid : Str
deriving DecidableEq

/-- Oracle environment of the deploy agent: configured tokens and one field
per provider API call site. -/
structure DeployEnv where
  vercelToken : Option Str
  netlifyToken : Option Str
  railwayToken : Option Str
  vercelStatus : Except Str VercelStatusData
  netlifyStatus : Except Str NetlifyStatusData
  railwayStatus : Except Str RailwayStatusData
  vercelGetDeployment : Except Str Str
  vercelDeployments : Except Str (List VercelDeploymentRec)
  vercelPromote : Str → Except Str Unit
  netlifyDeploys : Except Str (List Str)
  netlifyRestore : Str → Except Str Unit
  railwayDeployments : Except Str (List Str)
  railwayRollback : Str → Except Str Unit

/-- Model of `DeployAgent.checkVercelStatus` (lines 565-589). -/
def checkVercelStatus (env : DeployEnv) (_deploymentId : Str) : Except Str StatusInfo :=
  match env.vercelToken with
  | none => Except.error ("Vercel token not provided".toList)
  | some _ =>
    match env.vercelStatus with
    | Except.error e => Except.error e
    | Except.ok d =>
      Except.ok
        { status :=
            if d.readyState = ("READY".toList) then DeployStatus.ready
            else if d.readyState = ("ERROR".toList) then DeployStatus.error
            else DeployStatus.building
          url := d.url
          logs := match d.logs with
            | some l => l
            | none => [("No logs available".toList)] }

/-- Model of `DeployAgent.checkNetlifyStatus` (lines 591-615). -/
def checkNetlifyStatus (env : DeployEnv) (_siteId : Str) : Except Str StatusInfo :=
  match env.netlifyToken with
  | none => Except.error ("Netlify token not provided".toList)
  | some _ =>
    match env.netlifyStatus with
    | Except.error e => Except.error e
    | Except.ok d =>
      Except.ok
        { status :=
            if d.state = ("ready".toList) then DeployStatus.ready
            else if d.state = ("error".toList) then DeployStatus.error
            else DeployStatus.building
          url := d.url
          logs := match d.deployLog with
            | some l => l
            | none => [("No logs available".toList)] }

/-- Model of `DeployAgent.checkRailwayStatus` (lines 617-653). -/
def checkRailwayStatus (env : DeployEnv) (_deploymentId : Str) : Except Str StatusInfo :=
  match env.railwayToken with
  | none => Except.error ("Railway token not provided".toList)
  | some _ =>
    match env.railwayStatus with
    | Except.error e => Except.error e
    | Except.ok d =>
      Except.ok
        { status :=
            if d.status = ("SUCCESS".toList) then DeployStatus.ready
            else if d.status = ("FAILED".toList) then DeployStatus.error
            else DeployStatus.building
          url := d.url
          logs := match d.logs with
            | some l => l
            | none => [("No logs available".toList)] }

/-- The URL reported for an AWS deployment by `checkAWSStatus`: the region
is hardcoded to `us-east-1` regardless of the configured `AWS_REGION`. -/
def awsStatusUrl (bucketName : Str) : Str :=
  ("https://".toList) ++ bucketName ++ (".s3-website-us-east-1.amazonaws.com".toList)

/-- Model of `DeployAgent.checkAWSStatus` (lines 655-666): a constant
`ready` answer that consults no bucket state at all. -/
def checkAWSStatus (bucketName : Str) : Except Str StatusInfo :=
  Except.ok
    { status := DeployStatus.ready
      url := some (awsStatusUrl bucketName)
      logs := [("AWS S3 deployment completed successfully".toList)] }

/-- The try-block body of `checkDeploymentStatus`: dispatch on the platform
string; an unsupported platform throws. -/
def statusInner (env : DeployEnv) (deploymentId platform : Str) : Except Str StatusInfo :=
  if platform = ("vercel".toList) then checkVercelStatus env deploymentId
  else if platform = ("netlify".toList) then checkNetlifyStatus env deploymentId
  else if platform = ("railway".toList) then checkRailwayStatus env deploymentId
  else if platform = ("aws".toList) then checkAWSStatus deploymentId
  else Except.error (("Unsupported platform: ".toList) ++ platform)

/-- Model of `DeployAgent.checkDeploymentStatus` (lines 536-563): every
internal failure is caught and reported as a `status: 'error'` result with
an explanatory log line — the method itself never throws. -/
def checkDeploymentStatus (env : DeployEnv) (deploymentId platform : Str) : StatusInfo :=
  match statusInner env deploymentId platform with
  | Except.ok s => s
  | Except.error e =>
    { status := DeployStatus.error
      url := none
      logs := [(("Status check failed: ".toList) ++ e)] }

/-- Model of `DeployAgent.rollbackVercel` (lines 690-727): token check,
deployment lookup, listing of the two most recent deployments, failure when
fewer than two exist, then promotion of the second-listed deployment
(whatever its own status was).  The promoted `uid` is returned. -/
def rollbackVercel (env : DeployEnv) (_deploymentId : Str) : Except Str Str :=
  match env.vercelToken with
  | none => Except.error ("Vercel token not provided".toList)
  | some _ =>
    match env.vercelGetDeployment with
    | Except.error e => Except.error e
    | Except.ok _projectId =>
      match env.vercelDeployments with
      | Except.error e => Except.error e
      | Except.ok deps =>
        match deps with
        | _ :: prev :: _ =>
          match env.vercelPromote prev.uid with
          | Except.error e => Except.error e
          | Except.ok _ => Except.ok prev.uid
        | _ => Except.error ("No previous deployment to rollback to".toList)

/-- Model of `DeployAgent.rollbackNetlify` (lines 729-757). -/
def rollbackNetlify (env : DeployEnv) (_siteId : Str) : Except Str Str :=
  match env.netlifyToken with
  | none => Except.error ("Netlify token not provided".toList)
  | some _ =>
    match env.netlifyDeploys with
    | Except.error e => Except.error e
    | Except.ok deploys =>
      match deploys with
      | _ :: prev :: _ =>
        match env.netlifyRestore prev with
        | Except.error e => Except.error e
        | Except.ok _ => Except.ok prev
      | _ => Except.error ("No previous deployment to rollback to".toList)

/-- Model of `DeployAgent.rollbackRailway` (lines 759-811). -/
def rollbackRailway (env : DeployEnv) (_deploymentId : Str) : Except Str Str :=
  match env.railwayToken with
  | none => Except.error ("Railway token not provided".toList)
  | some _ =>
    match env.railwayDeployments with
    | Except.error e => Except.error e
    | Except.ok deps =>
      match deps with
      | _ :: prev :: _ =>
        match env.railwayRollback prev with
        | Except.error e => Except.error e
        | Except.ok _ => Except.ok prev
      | _ => Except.error ("No previous deployment to rollback to".toList)

/-- Model of `DeployAgent.rollbackDeployment` (lines 668-688): dispatch on
the platform; any thrown error is caught and turned into `false`.  The AWS
branch (`rollbackAWS`, lines 813-817) consults no deployment records and
returns `true` unconditionally.  The second component records which
previous deployment the provider was asked to promote/restore (`none`
when no such API call happened). -/
def rollbackDeployment (env : DeployEnv) (deploymentId platform : Str) :
    Bool × Option Str :=
  if platform = ("vercel".toList) then
    match rollbackVercel env deploymentId with
    | Except.ok uid => (true, some uid)
    | Except.error _ => (false, none)
  else if platform = ("netlify".toList) then
    match rollbackNetlify env deploymentId with
    | Except.ok did => (true, some did)
    | Except.error _ => (false, none)
  else if platform = ("railway".toList) then
    match rollbackRailway env deploymentId with
    | Except.ok did => (true, some did)
    | Except.error _ => (false, none)
  else if platform = ("aws".toList) then (true, none)
  else (false, none)


/-!
### Concrete test vectors

Concrete bundles, plans and environments used by the closed witness and
counterexample theorems below.
-/

/-- An empty code bundle, base of the concrete bundles below. -/
def emptyBundle : GeneratedCode :=
  { frontend := { components := [], pages := [], styles := [], config := [] }
    backend := { routes := [], models := [], middleware := [], config := [] }
    database := { schema := [], migrations := [], seeds := [] }
    deployment := { dockerfile := [], dockerCompose := [], vercelConfig := Json.null } }

/-- A bundle with one component containing a plain `<img>` tag. -/
def imgBundle : GeneratedCode :=
  { emptyBundle with
    frontend := { emptyBundle.frontend with
      components := [(("Gallery.tsx".toList), ("<img src=\"a\">".toList))] } }

/-- A bundle with one component containing blank lines and no imports. -/
def blankLineBundle : GeneratedCode :=
  { emptyBundle with
    frontend := { emptyBundle.frontend with
      components := [(("Home.tsx".toList), ("line1\n\n  \nline2".toList))] } }

/-- A concrete refined-by-hand plan whose fields differ from every generic
fallback value. -/
def inventoryPlan : PlanJ :=
  { name := Json.str ("Inventory Tracker".toList)
    description := Json.str ("tracks inventory".toList)
    features := Json.arr [Json.str ("barcode scanning".toList)]
    techStack :=
      { frontend := Json.str ("Vue".toList)
        backend := Json.str ("Go".toList)
        database := Json.str ("SQLite".toList)
        deployment := Json.str ("Fly".toList) }
    struct :=
      { pages := Json.arr [Json.str ("Stock".toList)]
        components := Json.arr [Json.str ("Scanner".toList)]
        api := Json.arr [Json.str ("/api/items".toList)] }
    timeline := Json.str ("1 week".toList)
    complexity := Json.str ("complex".toList) }

/-- Planner oracle: the model client resolves and `generateText` answers
with prose containing no JSON payload. -/
def plannerEnvNoPayload : PlannerEnv :=
  { getClient := Except.ok ()
    refineResp := Except.ok ("sure, I have updated the plan as requested".toList) }

/-- Planner oracle: the `generateText` call itself fails. -/
def plannerEnvDown : PlannerEnv :=
  { getClient := Except.ok ()
    refineResp := Except.error ("rate limited".toList) }

/-- Research oracle: the keyword-extraction `generate` call rejects, every
other collaborator is healthy. -/
def researchEnvGenFails : ResearchEnv :=
  { keywordsResp := Except.error ("model download failed".toList)
    ddg := Except.ok []
    altEngines := []
    cacheFile := none
    aiResp := Except.ok ("[]".toList)
    analysisResp := Except.ok ("ignored".toList) }

/-- Research oracle: both `generate` calls return (with no JSON payload)
while every search collaborator fails. -/
def researchEnvAllSearchFail : ResearchEnv :=
  { keywordsResp := Except.ok ("no payload here".toList)
    ddg := Except.error ("network unreachable".toList)
    altEngines :=
      [Except.error ("startpage down".toList), Except.error ("yahoo down".toList),
       Except.error ("ecosia down".toList)]
    cacheFile := none
    aiResp := Except.error ("model offline".toList)
    analysisResp := Except.ok ("still no payload".toList) }

/-- A healthy optimization result over the empty bundle. -/
def okOptimization : OptimizationResultM :=
  { success := true, optimizedCode := emptyBundle, improvements := [], issues := []
    performanceScore := 90, securityScore := 75, maintainabilityScore := 90 }

/-- Orchestrator oracle: the four generation stages succeed and the deploy
call returns an unsuccessful result. -/
def orchEnvDeployFails : OrchestratorEnv :=
  { appId := ("voxlor-1".toList)
    research := Except.ok defaultSummaryJson
    plan := Except.ok inventoryPlan
    code := Except.ok emptyBundle
    optimization := Except.ok okOptimization
    deploy := Except.ok
      { success := false, url := none, deploymentId := none, logs := []
        errors := [("Vercel deployment failed: Vercel token not provided".toList)] } }

/-- A generation request used by the orchestrator witnesses. -/
def todoRequest : AppGenerationRequest :=
  { prompt := ("todo list app".toList), platform := ("web".toList), features := []
    style := ("modern".toList), targetAudience := ("general".toList) }

/-- Deploy oracle with tokens configured but no deployment history
anywhere. -/
def deployEnvNoHistory : DeployEnv :=
  { vercelToken := some ("tok-v".toList)
    netlifyToken := some ("tok-n".toList)
    railwayToken := some ("tok-r".toList)
    vercelStatus := Except.error ("not found".toList)
    netlifyStatus := Except.error ("not found".toList)
    railwayStatus := Except.error ("not found".toList)
    vercelGetDeployment := Except.ok ("prj_1".toList)
    vercelDeployments := Except.ok []
    vercelPromote := fun _ => Except.ok ()
    netlifyDeploys := Except.ok []
    netlifyRestore := fun _ => Except.ok ()
    railwayDeployments := Except.ok []
    railwayRollback := fun _ => Except.ok () }

/-- Deploy oracle with two recorded Vercel deployments. -/
def deployEnvTwoDeployments : DeployEnv :=
  { deployEnvNoHistory with
    vercelDeployments := Except.ok [{ uid := ("dpl_new".toList) }, { uid := ("dpl_old".toList) }] }


/-!
### Helper lemmas

Structural facts about the string model used by the theorems below.
-/

/-- Splitting never yields an empty piece list. -/
theorem jsSplit_ne_nil (sep : Char) (l : Str) : jsSplit sep l ≠ [] := by
  induction l with
  | nil => simp [jsSplit]
  | cons c cs ih =>
    rcases h : jsSplit sep cs with _ | ⟨p, ps⟩
    · exact absurd h ih
    · by_cases hc : c = sep <;> simp [jsSplit, h, hc]

/-- Unfolding of `jsSplit` on a cons cell, given the split of the tail. -/
theorem jsSplit_cons {sep c : Char} {cs : Str} {p0 : Str} {ps : List Str}
    (h : jsSplit sep cs = p0 :: ps) :
    jsSplit sep (c :: cs) = if c = sep then [] :: p0 :: ps else (c :: p0) :: ps := by
  simp [jsSplit, h]

/-- A split piece never contains the separator. -/
theorem jsSplit_sep_not_mem (sep : Char) (l : Str) :
    ∀ p ∈ jsSplit sep l, sep ∉ p := by
  induction l with
  | nil => intro p hp; simp [jsSplit] at hp; simp [hp]
  | cons c cs ih =>
    intro p hp
    rcases h : jsSplit sep cs with _ | ⟨p0, ps⟩
    · exact absurd h (jsSplit_ne_nil sep cs)
    · rw [jsSplit_cons h] at hp
      by_cases hc : c = sep
      · rw [if_pos hc] at hp
        rcases List.mem_cons.mp hp with rfl | hp
        · simp
        · exact ih p (h ▸ hp)
      · rw [if_neg hc] at hp
        rcases List.mem_cons.mp hp with rfl | hp
        · intro hmem
          rcases List.mem_cons.mp hmem with rfl | hmem
          · exact hc rfl
          · exact ih p0 (h ▸ List.mem_cons_self p0 ps) hmem
        · exact ih p (h ▸ List.mem_cons_of_mem p0 hp)

/-- Every character of a split piece is a character of the input. -/
theorem jsSplit_piece_subset (sep : Char) (l : Str) :
    ∀ p ∈ jsSplit sep l, ∀ x ∈ p, x ∈ l := by
  induction l with
  | nil => intro p hp x hx; simp [jsSplit] at hp; simp [hp] at hx
  | cons c cs ih =>
    intro p hp x hx
    rcases h : jsSplit sep cs with _ | ⟨p0, ps⟩
    · exact absurd h (jsSplit_ne_nil sep cs)
    · rw [jsSplit_cons h] at hp
      by_cases hc : c = sep
      · rw [if_pos hc] at hp
        rcases List.mem_cons.mp hp with rfl | hp
        · simp at hx
        · exact List.mem_cons_of_mem c (ih p (h ▸ hp) x hx)
      · rw [if_neg hc] at hp
        rcases List.mem_cons.mp hp with rfl | hp
        · rcases List.mem_cons.mp hx with rfl | hx
          · exact List.mem_cons_self x cs
          · exact List.mem_cons_of_mem c (ih p0 (h ▸ List.mem_cons_self p0 ps) x hx)
        · exact List.mem_cons_of_mem c (ih p (h ▸ List.mem_cons_of_mem p0 hp) x hx)

/-- Membership survives `dropWhile`. -/
theorem mem_of_mem_dropWhile {p : Char → Bool} {l : Str} {x : Char}
    (h : x ∈ l.dropWhile p) : x ∈ l := by
  induction l with
  | nil => exact h
  | cons c cs ih =>
    by_cases hc : p c
    · simp only [List.dropWhile, hc] at h
      exact List.mem_cons_of_mem c (ih h)
    · simp only [List.dropWhile, hc] at h
      simpa using h

/-- Membership survives `takeWhile`. -/
theorem mem_of_mem_takeWhile {p : Char → Bool} {l : Str} {x : Char}
    (h : x ∈ l.takeWhile p) : x ∈ l := by
  induction l with
  | nil => exact h
  | cons c cs ih =>
    by_cases hc : p c
    · simp only [List.takeWhile, hc] at h
      rcases List.mem_cons.mp h with rfl | h
      · exact List.mem_cons_self x cs
      · exact List.mem_cons_of_mem c (ih h)
    · simp only [List.takeWhile, hc] at h
      simp at h

/-- Membership survives `drop`. -/
theorem mem_of_mem_drop {l : Str} {n : Nat} {x : Char} (h : x ∈ l.drop n) : x ∈ l :=
  (List.drop_subset n l) h

/-- Every character of a trimmed string is a character of the original. -/
theorem mem_of_mem_jsTrim {l : Str} {x : Char} (h : x ∈ jsTrim l) : x ∈ l := by
  unfold jsTrim at h
  rw [List.mem_reverse] at h
  have h2 := mem_of_mem_dropWhile h
  rw [List.mem_reverse] at h2
  exact mem_of_mem_dropWhile h2

theorem importMatchAt_subset {l cap : Str} (h : importMatchAt l = some cap) :
    ∀ x ∈ cap, x ∈ l := by
  intro x hx
  by_cases hpre : ("import".toList).isPrefixOf l
  · rw [importMatchAt, if_pos hpre] at h
    rcases hr : (l.drop 6).dropWhile jsWhite with _ | ⟨b, r2⟩ <;> rw [hr] at h
    · simp at h
    · simp only [] at h
      by_cases hb : b = lbrace
      · rw [if_pos hb] at h
        by_cases he : (r2.takeWhile (fun d => d ≠ rbrace)).isEmpty
        · rw [if_pos he] at h; simp at h
        · rw [if_neg he] at h
          rcases hd : r2.dropWhile (fun d => d ≠ rbrace) with _ | ⟨b2, r3⟩ <;> rw [hd] at h
          · simp at h
          · simp only [] at h
            split at h
            · have hc : r2.takeWhile (fun d => d ≠ rbrace) = cap := Option.some.inj h
              rw [← hc] at hx
              have h1 : x ∈ r2 := mem_of_mem_takeWhile hx
              have h2 : x ∈ (l.drop 6).dropWhile jsWhite := by
                rw [hr]; exact List.mem_cons_of_mem b h1
              exact mem_of_mem_drop (mem_of_mem_dropWhile h2)
            · simp at h
      · rw [if_neg hb] at h; simp at h
  · rw [importMatchAt, if_neg hpre] at h; simp at h


/-- Every character of any `importMatch` capture is a character of the
line. -/
theorem importMatch_subset {l cap : Str} (h : importMatch l = some cap) :
    ∀ x ∈ cap, x ∈ l := by
  induction l with
  | nil => simp [importMatch] at h
  | cons c cs ih =>
    intro x hx
    simp only [importMatch] at h
    rcases ha : importMatchAt (c :: cs) with _ | cap0 <;> rw [ha] at h
    · exact List.mem_cons_of_mem c (ih h x hx)
    · have : cap0 = cap := Option.some.inj h
      subst this
      exact importMatchAt_subset ha x hx

/-- Character provenance through a first-occurrence replacement. -/
theorem jsReplaceFirst_subset (l pat rep : Str) :
    ∀ x ∈ jsReplaceFirst l pat rep, x ∈ l ∨ x ∈ rep := by
  induction l with
  | nil =>
    intro x hx
    unfold jsReplaceFirst at hx
    split at hx
    · rcases List.mem_append.mp hx with h | h
      · exact Or.inr h
      · simp at h
    · simp at hx
  | cons c cs ih =>
    intro x hx
    unfold jsReplaceFirst at hx
    split at hx
    · rcases List.mem_append.mp hx with h | h
      · exact Or.inr h
      · exact Or.inl (mem_of_mem_drop h)
    · rcases List.mem_cons.mp hx with rfl | hx
      · exact Or.inl (List.mem_cons_self x cs)
      · rcases ih x hx with h | h
        · exact Or.inl (List.mem_cons_of_mem c h)
        · exact Or.inr h

/-- Character provenance through a join. -/
theorem joinSep_subset (sep : Str) (L : List Str) :
    ∀ x ∈ joinSep sep L, x ∈ sep ∨ ∃ p ∈ L, x ∈ p := by
  induction L with
  | nil => intro x hx; simp [joinSep] at hx
  | cons a t ih =>
    intro x hx
    cases t with
    | nil =>
      simp only [joinSep] at hx
      exact Or.inr ⟨a, List.mem_cons_self a [], hx⟩
    | cons b t2 =>
      simp only [joinSep] at hx
      rcases List.mem_append.mp hx with h | h
      · rcases List.mem_append.mp h with h2 | h2
        · exact Or.inr ⟨a, List.mem_cons_self a (b :: t2), h2⟩
        · exact Or.inl h2
      · rcases ih x h with h2 | ⟨p, hp, hxp⟩
        · exact Or.inl h2
        · exact Or.inr ⟨p, List.mem_cons_of_mem a hp, hxp⟩

/-- Splitting a separator-free string gives back the single piece. -/
theorem jsSplit_eq_single {sep : Char} {a : Str} (h : sep ∉ a) :
    jsSplit sep a = [a] := by
  induction a with
  | nil => simp [jsSplit]
  | cons c cs ih =>
    have hc : c ≠ sep := fun hcc => h (hcc ▸ List.mem_cons_self c cs)
    have hcs : sep ∉ cs := fun hm => h (List.mem_cons_of_mem c hm)
    rw [jsSplit_cons (ih hcs), if_neg hc]

/-- Splitting peels a separator-free prefix before a separator. -/
theorem jsSplit_append {sep : Char} (r : Str) {a : Str} (h : sep ∉ a) :
    jsSplit sep (a ++ sep :: r) = a :: jsSplit sep r := by
  induction a with
  | nil =>
    rcases hr : jsSplit sep r with _ | ⟨p, ps⟩
    · exact absurd hr (jsSplit_ne_nil sep r)
    · rw [List.nil_append, jsSplit_cons hr, if_pos rfl]
  | cons c cs ih =>
    have hc : c ≠ sep := fun hcc => h (hcc ▸ List.mem_cons_self c cs)
    have hcs : sep ∉ cs := fun hm => h (List.mem_cons_of_mem c hm)
    rw [List.cons_append, jsSplit_cons (ih hcs), if_neg hc]

/-- Splitting inverts joining, for separator-free pieces. -/
theorem jsSplit_joinSep {sep : Char} {L : List Str} (hL : L ≠ [])
    (h : ∀ p ∈ L, sep ∉ p) : jsSplit sep (joinSep [sep] L) = L := by
  induction L with
  | nil => exact absurd rfl hL
  | cons a t ih =>
    cases t with
    | nil =>
      have := jsSplit_eq_single (h a (List.mem_cons_self a []))
      simpa [joinSep] using this
    | cons b t2 =>
      have hjoin : joinSep [sep] (a :: b :: t2) = a ++ sep :: joinSep [sep] (b :: t2) := by
        simp [joinSep]
      rw [hjoin, jsSplit_append _ (h a (List.mem_cons_self a (b :: t2))),
        ih (by simp) (fun p hp => h p (List.mem_cons_of_mem a hp))]

/-- A line rewritten by `pruneImportLine` contains no newline when the
original line contains none. -/
theorem pruneImportLine_no_newline {used : List Str} {line : Str}
    (h : '\n' ∉ line) : '\n' ∉ pruneImportLine used line := by
  unfold pruneImportLine
  rcases hm : importMatch line with _ | cap
  · exact h
  · have hcap : '\n' ∉ cap := fun hx => h (importMatch_subset hm '\n' hx)
    simp only []
    by_cases h1 : ((parseImports cap).filter (fun imp => used.contains imp)).isEmpty = true
    · rw [if_pos h1]
      simp
    · rw [if_neg h1]
      split
      · intro hx
        rcases jsReplaceFirst_subset _ _ _ '\n' hx with hl | hr
        · exact h hl
        · rcases List.mem_cons.mp hr with heq | hr2
          · exact absurd heq (by decide)
          · rcases List.mem_append.mp hr2 with hj | hb
            · rcases joinSep_subset _ _ '\n' hj with hs | ⟨p, hp, hxp⟩
              · exact absurd hs (by decide)
              · have hpi : p ∈ parseImports cap := (List.mem_filter.mp hp).1
                have : '\n' ∈ cap := by
                  unfold parseImports at hpi
                  rcases List.mem_map.mp hpi with ⟨piece, hpiece, rfl⟩
                  exact jsSplit_piece_subset ',' cap piece hpiece '\n'
                    (mem_of_mem_jsTrim hxp)
                exact hcap this
            · exact absurd (by simpa using hb) (by decide : ¬('\n' = rbrace))
      · exact h

/-- The unused-import removal step never leaves a blank (whitespace-only)
line: its output is either the empty string or a newline-join of lines
whose trimmed forms are all nonempty. -/
theorem removeUnusedImports_no_blank (content : Str) :
    removeUnusedImports content = [] ∨
    ∀ l ∈ jsSplit '\n' (removeUnusedImports content), jsTrim l ≠ [] := by
  set K := ((jsSplit '\n' content).map
      (pruneImportLine (usedImportsOf content (jsSplit '\n' content)))).filter
      (fun line => !(jsTrim line).isEmpty) with hK
  have hstruct : removeUnusedImports content = joinSep [('\n')] K := rfl
  rcases hk : K with _ | ⟨k0, ks⟩
  · left
    rw [hstruct, hk]
    rfl
  · right
    intro l hl
    have hnl : ∀ p ∈ K, '\n' ∉ p := by
      intro p hp
      rw [hK] at hp
      have hp2 : p ∈ (jsSplit '\n' content).map
          (pruneImportLine (usedImportsOf content (jsSplit '\n' content))) :=
        List.mem_of_mem_filter hp
      rcases List.mem_map.mp hp2 with ⟨l0, hl0, rfl⟩
      have hn0 : '\n' ∉ l0 := jsSplit_sep_not_mem '\n' content l0 hl0
      exact pruneImportLine_no_newline hn0
    rw [hstruct, jsSplit_joinSep (by rw [hk]; simp) hnl] at hl
    have hfil := List.of_mem_filter (hK ▸ hl)
    intro hemp
    rw [hemp] at hfil
    simp at hfil

/-- Descending foldl under a per-step non-increasing function. -/
theorem foldl_le_init {α : Type} (f : Int → α → Int) (h : ∀ s x, f s x ≤ s) :
    ∀ (l : List α) (s : Int), l.foldl f s ≤ s := by
  intro l
  induction l with
  | nil => intro s; simp
  | cons a t ih =>
    intro s
    calc (a :: t).foldl f s = t.foldl f (f s a) := rfl
    _ ≤ f s a := ih (f s a)
    _ ≤ s := h s a

/-- C7.  For every code bundle, the three computed scores lie in `[0, 100]`:
each starts at 100, is only decreased by fixed penalties over the bundle's
files, and is floored at 0 by the final `Math.max`. -/
theorem scores_within_bounds (code : GeneratedCode) :
    (0 ≤ calculatePerformanceScore code ∧ calculatePerformanceScore code ≤ 100) ∧
    (0 ≤ calculateSecurityScore code ∧ calculateSecurityScore code ≤ 100) ∧
    (0 ≤ calculateMaintainabilityScore code ∧ calculateMaintainabilityScore code ≤ 100) := by
  refine ⟨⟨?_, ?_⟩, ⟨?_, ?_⟩, ⟨?_, ?_⟩⟩
  · exact le_max_left 0 _
  · unfold calculatePerformanceScore
    refine max_le (by norm_num) (le_trans (foldl_le_init _ ?_ _ _) (by norm_num))
    intro s x
    dsimp only
    split_ifs <;> omega
  · exact le_max_left 0 _
  · unfold calculateSecurityScore
    refine max_le (by norm_num) (le_trans (foldl_le_init _ ?_ _ _) (by norm_num))
    intro s x
    dsimp only
    split_ifs <;> omega
  · exact le_max_left 0 _
  · unfold calculateMaintainabilityScore
    refine max_le (by norm_num) (le_trans (foldl_le_init _ ?_ _ _) (by norm_num))
    intro s x
    dsimp only
    split_ifs <;> omega

/-- C10.  Every frontend component text produced by the performance rewrite
pass contains no blank line: the unused-import removal step rejoins the
file after filtering out every empty-or-whitespace-only line, even in files
with no unused imports.  (An entirely filtered-out file yields the empty
string, which has no lines at all.) -/
theorem optimizePerformance_strips_blank_lines (code : GeneratedCode) (nc : Str × Str)
    (hmem : nc ∈ (optimizePerformance code).frontend.components)
    (hne : nc.2 ≠ []) :
    ∀ l ∈ jsSplit '\n' nc.2, jsTrim l ≠ [] := by
  have hcomps : (optimizePerformance code).frontend.components =
      code.frontend.components.map (fun p => (p.1, perfComponent p.1 p.2)) := rfl
  rw [hcomps] at hmem
  rcases List.mem_map.mp hmem with ⟨p, _hp, hpe⟩
  have h2 : nc.2 = perfComponent p.1 p.2 := by rw [← hpe]
  rw [h2] at hne ⊢
  have hrm : perfComponent p.1 p.2 = removeUnusedImports (perfComponentPre p.1 p.2) := rfl
  rw [hrm] at hne ⊢
  rcases removeUnusedImports_no_blank (perfComponentPre p.1 p.2) with hz | hok
  · exact absurd hz hne
  · exact hok

/-- Closed witness for `optimizePerformance_strips_blank_lines`, at a
bundle whose one component contains blank lines: its rewritten text is
`line1\nline2`, and the first of those lines trims nonempty. -/
theorem optimizePerformance_strips_blank_lines_witness :
    jsTrim ("line1".toList) ≠ [] :=
  optimizePerformance_strips_blank_lines blankLineBundle
    ((("Home.tsx".toList), ("line1\nline2".toList))) (by decide) (by decide)
    ("line1".toList) (by decide)

/-- C3 (code bug).  The performance rewrite pass is not idempotent: its
`<img.../>` lazy-loading rewrite, unlike every other insertion of the pass,
has no already-transformed guard, so a second application injects a second
` loading="lazy" /` into the tag rewritten by the first. -/
theorem optimizePerformance_img_rewrite_not_idempotent :
    perfComponent ("Gallery.tsx".toList)
        (perfComponent ("Gallery.tsx".toList) ("<img src=\"a\">".toList)) ≠
      perfComponent ("Gallery.tsx".toList) ("<img src=\"a\">".toList) ∧
    (optimizePerformance (optimizePerformance imgBundle)).frontend.components ≠
      (optimizePerformance imgBundle).frontend.components := by
  constructor
  · decide
  · decide

/-- Relevance accumulation over metacharacter-free string keywords equals
the sum of the per-keyword occurrence scores. -/
theorem relevanceScore_literal (contentLower : Str) :
    ∀ (keywords : List Str), (∀ k ∈ keywords, (jsLower k).any regexMeta = false) →
    relevanceScore contentLower (keywords.map Json.str) =
      some ((keywords.map
        (fun k => (countOcc (jsLower k) contentLower : ℚ) * (1 / 10))).sum) := by
  intro keywords
  induction keywords with
  | nil => intro _; simp [relevanceScore]
  | cons k ks ih =>
    intro hmeta
    have hk : (jsLower k).any regexMeta = false := hmeta k (List.mem_cons_self k ks)
    have hks : ∀ k2 ∈ ks, (jsLower k2).any regexMeta = false :=
      fun k2 hk2 => hmeta k2 (List.mem_cons_of_mem k hk2)
    simp only [List.map_cons, relevanceScore, hk, ih hks, List.sum_cons]
    rfl

/-- C8 (counterexample).  Relevance computation is *not* total in the
keyword: each keyword is compiled with `new RegExp(keyword, "g")`, so the
keyword `"("` makes the constructor throw a `SyntaxError` (modelled by
`none`), refuting "the computation itself never fails for any keyword
string". -/
theorem calculateRelevance_throws_on_paren_keyword :
    calculateRelevance ("react app".toList) [Json.str ("(".toList)] = none := rfl

/-- C8 (amended).  For keyword lists of strings free of regex
metacharacters — for which the compiled pattern counts literal
occurrences — the relevance equals `min 1 (Σ over keywords of 0.1 ×
occurrence count)` (occurrences counted case-insensitively,
non-overlapping, left to right), and every produced relevance lies in
`[0, 1]`. -/
theorem calculateRelevance_literal_spec (content : Str) (keywords : List Str)
    (hmeta : ∀ k ∈ keywords, (jsLower k).any regexMeta = false) :
    calculateRelevance content (keywords.map Json.str) =
      some (min 1 ((keywords.map
        (fun k => (countOcc (jsLower k) (jsLower content) : ℚ) * (1 / 10))).sum)) ∧
    ∀ q, calculateRelevance content (keywords.map Json.str) = some q →
      0 ≤ q ∧ q ≤ 1 := by
  have hscore := relevanceScore_literal (jsLower content) keywords hmeta
  have hsum : 0 ≤ ((keywords.map
      (fun k => (countOcc (jsLower k) (jsLower content) : ℚ) * (1 / 10))).sum) := by
    apply List.sum_nonneg
    intro x hx
    rcases List.mem_map.mp hx with ⟨k, _, rfl⟩
    positivity
  constructor
  · rw [calculateRelevance, hscore]
    simp only [Option.map_some', Option.some.injEq]
    rw [min_comm, min_def]
  · intro q hq
    rw [calculateRelevance, hscore] at hq
    simp only [Option.map_some', Option.some.injEq] at hq
    rw [← hq]
    constructor
    · split
      · exact hsum
      · norm_num
    · split
      · assumption
      · norm_num

/-- Closed witness for `calculateRelevance_literal_spec`: two occurrences
of a keyword score `0.2`. -/
theorem calculateRelevance_literal_spec_witness :
    calculateRelevance ("react app react".toList) [Json.str ("react".toList)] =
      some (1 / 5) ∧ ((0 : ℚ) ≤ 1 / 5 ∧ (1 : ℚ) / 5 ≤ 1) := by
  have h := calculateRelevance_literal_spec ("react app react".toList)
    [("react".toList)] (by decide)
  have h1 : relevanceScore (jsLower ("react app react".toList)) [Json.str ("react".toList)] =
      some (((2 : ℕ) : ℚ) * (1 / 10) + 0) := rfl
  have he : calculateRelevance ("react app react".toList) [Json.str ("react".toList)] =
      some (1 / 5) := by
    rw [calculateRelevance, h1]
    norm_num
  exact ⟨he, h.2 (1 / 5) he⟩

/-- C1 (counterexample).  `researchApp` *can* fail: the
`llama3LLM.generate` call inside `extractKeywords` sits outside any
try/catch, so when the text-generation client rejects, the rejection
propagates out of `researchApp` instead of degrading to a default
summary. -/
theorem researchApp_error_on_generate_failure :
    researchApp researchEnvGenFails ("todo list app".toList) none =
      Except.error ("model download failed".toList) := rfl

/-- C1 (amended).  `researchApp` fails only when one of its two direct
text-generation calls (keyword extraction, result analysis) fails; when
both return, it always produces a summary value — the JSON payload parsed
from the analysis response when one parses (with whatever fields it has),
otherwise the static default summary, which carries all six
`ResearchSummary` fields. -/
theorem researchApp_ok_of_generate_ok (env : ResearchEnv) (prompt : Str)
    (plan : Option Json)
    (hk : ∃ s, env.keywordsResp = Except.ok s)
    (ha : ∃ s, env.analysisResp = Except.ok s) :
    (∃ j, researchApp env prompt plan = Except.ok j) ∧
    (∀ s, env.analysisResp = Except.ok s → ((extractBraces s).bind jsonParse) = none →
      researchApp env prompt plan = Except.ok defaultSummaryJson ∧
      hasSixFields defaultSummaryJson = true) := by
  obtain ⟨ks, hks⟩ := hk
  obtain ⟨as, has⟩ := ha
  have hek : ∃ kw, extractKeywords env prompt = Except.ok kw := by
    rw [extractKeywords, hks]
    simp only []
    rcases extractBrackets ks with _ | s
    · exact ⟨_, rfl⟩
    · simp only []
      rcases jsonParse s with _ | j
      · exact ⟨_, rfl⟩
      · cases j <;> exact ⟨_, rfl⟩
  obtain ⟨kw, hkw⟩ := hek
  constructor
  · rw [researchApp, hkw]
    simp only []
    rw [analyzeResults, has]
    simp only []
    rcases extractBraces as with _ | s
    · exact ⟨_, rfl⟩
    · simp only []
      rcases jsonParse s with _ | j
      · exact ⟨_, rfl⟩
      · exact ⟨_, rfl⟩
  · intro s hs hparse
    rw [has] at hs
    have hs2 : as = s := Except.ok.inj hs
    subst hs2
    refine ⟨?_, rfl⟩
    rw [researchApp, hkw]
    simp only []
    rw [analyzeResults, has]
    simp only []
    rcases hb : extractBraces as with _ | s2
    · rfl
    · rw [hb] at hparse
      simp only [Option.some_bind] at hparse
      simp only []
      rw [hparse]

/-- Closed witness for `researchApp_ok_of_generate_ok`: with both
generation calls answering (payload-free) and every search collaborator
failing, the default summary with all six fields is returned. -/
theorem researchApp_ok_of_generate_ok_witness :
    researchApp researchEnvAllSearchFail ("todo list app".toList) none =
      Except.ok defaultSummaryJson ∧ hasSixFields defaultSummaryJson = true :=
  (researchApp_ok_of_generate_ok researchEnvAllSearchFail ("todo list app".toList) none
    ⟨("no payload here".toList), rfl⟩ ⟨("still no payload".toList), rfl⟩).2
    ("still no payload".toList) rfl rfl

/-- C6.  When the primary search yields no results and each of the three
fallback strategies fails or yields no results, `searchWeb` returns the
empty sequence rather than an error. -/
theorem searchWeb_empty_when_all_strategies_fail (env : ResearchEnv)
    (keywords : List Json)
    (hddg : (match env.ddg with
             | Except.error _ => (([] : List Json), true)
             | Except.ok raws => processRaws keywords (raws.take 5)).1 = [])
    (halt : engineResults keywords env.altEngines = [])
    (hcache : searchWithCachedResults env keywords = [])
    (hai : searchWithAIKnowledge env keywords = []) :
    searchWeb env keywords = [] := by
  have hfb : fallbackSearch env keywords = [] := by
    rw [fallbackSearch, halt]
    simp only [List.isEmpty_nil, Bool.not_true, Bool.false_eq_true, if_false]
    rw [hcache]
    simpa using hai
  rw [searchWeb]
  rcases hd : env.ddg with e | raws
  · rw [hd] at hddg
    simp only [] at hddg ⊢
    rw [hfb]
    rfl
  · rw [hd] at hddg
    simp only [] at hddg ⊢
    rw [hddg]
    simp only [List.isEmpty_nil, Bool.or_true, if_true]
    rw [hfb]
    rfl

/-- Closed witness for `searchWeb_empty_when_all_strategies_fail`, with
every network call failing. -/
theorem searchWeb_empty_when_all_strategies_fail_witness :
    searchWeb researchEnvAllSearchFail [Json.str ("xyzxyz_no_such_topic".toList)] = [] :=
  searchWeb_empty_when_all_strategies_fail researchEnvAllSearchFail
    [Json.str ("xyzxyz_no_such_topic".toList)] rfl rfl rfl rfl

/-- C5 (counterexample).  When the refinement response parses to no JSON
payload, `refinePlan` does *not* return the unmodified input plan: it
returns the generic fallback plan built inside `parsePlan`'s catch branch
(here its description differs from the input plan's). -/
theorem refinePlan_returns_generic_fallback_on_parse_failure :
    refinePlan plannerEnvNoPayload inventoryPlan ("add auth".toList) =
      fallbackPlanWithName (generateAppName ("Inventory Tracker".toList)) ∧
    (refinePlan plannerEnvNoPayload inventoryPlan ("add auth".toList)).description ≠
      inventoryPlan.description := by
  refine ⟨rfl, ?_⟩
  intro h
  have h2 : ("AI-generated app based on your request".toList) =
      ("tracks inventory".toList) := by
    have h3 := h
    rw [show (refinePlan plannerEnvNoPayload inventoryPlan ("add auth".toList)).description =
        Json.str ("AI-generated app based on your request".toList) from rfl,
      show inventoryPlan.description = Json.str ("tracks inventory".toList) from rfl] at h3
    exact Json.str.inj h3
  exact absurd h2 (by decide)

/-- C5 (amended).  `refinePlan` returns the unmodified input plan exactly
when the model-client resolution or the `generateText` call itself fails
(or a `TypeError` escapes `parsePlan`); when the call succeeds but its
response contains no parseable JSON payload, it returns the generic
fallback plan derived from the input plan's name — the input plan is
discarded. -/
theorem refinePlan_failure_behaviour (env : PlannerEnv) (plan : PlanJ) (feedback : Str) :
    ((∃ e, env.getClient = Except.error e) ∨ (∃ e, env.refineResp = Except.error e) →
      refinePlan env plan feedback = plan) ∧
    (∀ text s, env.getClient = Except.ok () → env.refineResp = Except.ok text →
      (extractBraces text).bind jsonParse = none → plan.name = Json.str s →
      refinePlan env plan feedback = fallbackPlanWithName (generateAppName s)) := by
  constructor
  · intro h
    rw [refinePlan]
    rcases hg : env.getClient with e | u
    · rfl
    · rcases hr : env.refineResp with e | text
      · rfl
      · rcases h with ⟨e2, he2⟩ | ⟨e2, he2⟩
        · rw [hg] at he2; cases he2
        · rw [hr] at he2; cases he2
  · intro text s hcl hok hparse hname
    have hpp : parsePlanM text plan.name = some (fallbackPlanWithName (generateAppName s)) := by
      rw [parsePlanM, hparse, hname]
      rfl
    rw [refinePlan, hcl]
    simp only []
    rw [hok]
    simp only []
    rw [hpp]

/-- Closed witness for `refinePlan_failure_behaviour`: a failing
`generateText` call keeps the input plan, a payload-free answer replaces it
by the generic fallback. -/
theorem refinePlan_failure_behaviour_witness :
    refinePlan plannerEnvDown inventoryPlan ("add auth".toList) = inventoryPlan ∧
    refinePlan plannerEnvNoPayload inventoryPlan ("add auth".toList) =
      fallbackPlanWithName (generateAppName ("Inventory Tracker".toList)) :=
  ⟨(refinePlan_failure_behaviour plannerEnvDown inventoryPlan ("add auth".toList)).1
      (Or.inr ⟨("rate limited".toList), rfl⟩),
    (refinePlan_failure_behaviour plannerEnvNoPayload inventoryPlan ("add auth".toList)).2
      ("sure, I have updated the plan as requested".toList)
      ("Inventory Tracker".toList) rfl rfl rfl rfl⟩

/-- C2.  When the four generation stages succeed and the deploy call
returns an unsuccessful result, the orchestrator records the run-level
error `Deployment failed`, leaves `deploymentUrl` absent, and still
reports `success: true` for the generation portion. -/
theorem generateApp_success_despite_deploy_failure (env : OrchestratorEnv)
    (request : AppGenerationRequest)
    (hr : ∃ r, env.research = Except.ok r)
    (hp : ∃ p, env.plan = Except.ok p)
    (hc : ∃ c, env.code = Except.ok c)
    (ho : ∃ o, env.optimization = Except.ok o)
    (hd : ∃ d, env.deploy = Except.ok d ∧ d.success = false) :
    (generateApp env request).success = true ∧
    (generateApp env request).deploymentUrl = none ∧
    ("Deployment failed".toList) ∈ (generateApp env request).errors := by
  obtain ⟨r, hr⟩ := hr
  obtain ⟨p, hp⟩ := hp
  obtain ⟨c, hc⟩ := hc
  obtain ⟨o, ho⟩ := ho
  obtain ⟨d, hd, hds⟩ := hd
  rw [generateApp, hr]
  simp only []
  rw [hp]
  simp only []
  rw [hc]
  simp only []
  rw [ho]
  simp only []
  rw [hd]
  simp [hds]

/-- Closed witness for `generateApp_success_despite_deploy_failure`. -/
theorem generateApp_success_despite_deploy_failure_witness :
    (generateApp orchEnvDeployFails todoRequest).success = true ∧
    (generateApp orchEnvDeployFails todoRequest).deploymentUrl = none ∧
    ("Deployment failed".toList) ∈ (generateApp orchEnvDeployFails todoRequest).errors :=
  generateApp_success_despite_deploy_failure orchEnvDeployFails todoRequest
    ⟨defaultSummaryJson, rfl⟩ ⟨inventoryPlan, rfl⟩ ⟨emptyBundle, rfl⟩
    ⟨okOptimization, rfl⟩
    ⟨{ success := false, url := none, deploymentId := none, logs := []
       errors := [("Vercel deployment failed: Vercel token not provided".toList)] },
      rfl, rfl⟩

/-- C9.  `checkDeploymentStatus` for the `aws` platform always answers
`ready` with the hardcoded `us-east-1` website URL, consulting no bucket
state; and for every platform the method never throws — any internal
failure comes back as a `status: 'error'` result with an explanatory log
line. -/
theorem checkDeploymentStatus_aws_ready_and_never_throws (env : DeployEnv)
    (deploymentId platform : Str) :
    checkDeploymentStatus env deploymentId ("aws".toList) =
      { status := DeployStatus.ready
        url := some (awsStatusUrl deploymentId)
        logs := [("AWS S3 deployment completed successfully".toList)] } ∧
    (∀ e, statusInner env deploymentId platform = Except.error e →
      checkDeploymentStatus env deploymentId platform =
        { status := DeployStatus.error
          url := none
          logs := [(("Status check failed: ".toList) ++ e)] }) := by
  constructor
  · have hinner : statusInner env deploymentId ("aws".toList) =
        checkAWSStatus deploymentId := by
      rw [statusInner]
      rw [if_neg (by decide), if_neg (by decide), if_neg (by decide), if_pos rfl]
    rw [checkDeploymentStatus, hinner]
    rfl
  · intro e he
    rw [checkDeploymentStatus, he]

/-- Closed witness for `checkDeploymentStatus_aws_ready_and_never_throws`:
the AWS answer and a caught unsupported-platform failure. -/
theorem checkDeploymentStatus_aws_ready_and_never_throws_witness :
    checkDeploymentStatus deployEnvNoHistory ("bucket-7".toList) ("aws".toList) =
      { status := DeployStatus.ready
        url := some (awsStatusUrl ("bucket-7".toList))
        logs := [("AWS S3 deployment completed successfully".toList)] } ∧
    checkDeploymentStatus deployEnvNoHistory ("d-1".toList) ("bogus".toList) =
      { status := DeployStatus.error
        url := none
        logs := [(("Status check failed: ".toList) ++
          (("Unsupported platform: ".toList) ++ ("bogus".toList)))] } :=
  ⟨(checkDeploymentStatus_aws_ready_and_never_throws deployEnvNoHistory
      ("bucket-7".toList) ("bogus".toList)).1,
    (checkDeploymentStatus_aws_ready_and_never_throws deployEnvNoHistory
      ("d-1".toList) ("bogus".toList)).2
      (("Unsupported platform: ".toList) ++ ("bogus".toList)) rfl⟩

/-- C4 (counterexample).  `rollbackDeployment` does *not* fail when fewer
than two deployment records exist: for the `aws` platform it returns
`true` without consulting any records at all — here the same environment
lists no deployments for any provider. -/
theorem rollback_aws_succeeds_without_records :
    rollbackDeployment deployEnvNoHistory ("dep-1".toList) ("aws".toList) = (true, none) ∧
    deployEnvNoHistory.vercelDeployments = Except.ok [] ∧
    deployEnvNoHistory.netlifyDeploys = Except.ok [] ∧
    deployEnvNoHistory.railwayDeployments = Except.ok [] :=
  ⟨rfl, rfl, rfl, rfl⟩

/-- C4 (amended).  For the `vercel` platform (netlify and railway mirror
it) `rollbackDeployment` returns `false` — the inner
`No previous deployment to rollback to` ProviderError is caught — whenever
the provider lists fewer than two deployments (or any provider call
fails), and with at least two listed deployments and healthy calls it
returns `true` after asking the provider to promote the second-listed
deployment, whatever that deployment's own status was; for `aws` it
returns `true` unconditionally, touching no records. -/
theorem rollbackDeployment_amended (env : DeployEnv) (id : Str) :
    (∀ deps, env.vercelDeployments = Except.ok deps → deps.length < 2 →
      rollbackDeployment env id ("vercel".toList) = (false, none)) ∧
    (∀ d0 d1 rest, env.vercelToken.isSome = true →
      (∃ p, env.vercelGetDeployment = Except.ok p) →
      env.vercelDeployments = Except.ok (d0 :: d1 :: rest) →
      env.vercelPromote d1.uid = Except.ok () →
      rollbackDeployment env id ("vercel".toList) = (true, some d1.uid)) ∧
    rollbackDeployment env id ("aws".toList) = (true, none) := by
  refine ⟨?_, ?_, ?_⟩
  · intro deps hdeps hlen
    have hrv : ∃ e, rollbackVercel env id = Except.error e := by
      rw [rollbackVercel]
      rcases env.vercelToken with _ | t
      · exact ⟨_, rfl⟩
      · simp only []
        rcases env.vercelGetDeployment with e | pid
        · exact ⟨_, rfl⟩
        · simp only []
          rw [hdeps]
          simp only []
          match deps, hlen with
          | [], _ => exact ⟨_, rfl⟩
          | [d], _ => exact ⟨_, rfl⟩
          | d0 :: d1 :: rest, hlen => exact absurd hlen (by simp only [List.length_cons]; omega)
    obtain ⟨e, he⟩ := hrv
    rw [rollbackDeployment, if_pos rfl, he]
  · intro d0 d1 rest htok hget hprev hprom
    have hrv : rollbackVercel env id = Except.ok d1.uid := by
      rw [rollbackVercel]
      rcases ht : env.vercelToken with _ | t
      · rw [ht] at htok; simp at htok
      · simp only []
        obtain ⟨p, hp⟩ := hget
        rw [hp]
        simp only []
        rw [hprev]
        simp only []
        rw [hprom]
    rw [rollbackDeployment, if_pos rfl, hrv]
  · rw [rollbackDeployment,
      if_neg (by decide), if_neg (by decide), if_neg (by decide), if_pos rfl]

/-- Closed witness for `rollbackDeployment_amended`: no-history rollback
fails, two-deployment rollback promotes the older deployment, AWS rollback
trivially succeeds. -/
theorem rollbackDeployment_amended_witness :
    rollbackDeployment deployEnvNoHistory ("dep-1".toList) ("vercel".toList) =
      (false, none) ∧
    rollbackDeployment deployEnvTwoDeployments ("dep-1".toList) ("vercel".toList) =
      (true, some ("dpl_old".toList)) ∧
    rollbackDeployment deployEnvTwoDeployments ("dep-1".toList) ("aws".toList) =
      (true, none) :=
  ⟨(rollbackDeployment_amended deployEnvNoHistory ("dep-1".toList)).1 [] rfl (by decide),
    (rollbackDeployment_amended deployEnvTwoDeployments ("dep-1".toList)).2.1
      { uid := ("dpl_new".toList) } { uid := ("dpl_old".toList) } [] rfl
      ⟨("prj_1".toList), rfl⟩ rfl rfl,
    (rollbackDeployment_amended deployEnvTwoDeployments ("dep-1".toList)).2.2⟩
